import Mathlib

/-!
Verification development for the kitchen-sink repository.

The definitions below are a shallow embedding of the two subsystems the
claims are about:

* `src/sofurry-scraper/sofurry_downloader.py` — the Selenium crawl engine
  (`get_story_links`, `get_first_story_from_folder`,
  `is_story_already_downloaded`, `download_story`, `wait_for_download`,
  `main`);
* `src/ollama-stuff/proxy.py` — the proxy-process single-flight API
  (`start_proxy_server`, `stop_proxy_server`);
* `src/ollama-stuff/database.py` — `ModelDB.save_notes`.

Strings are modelled over their character lists; Python's ASCII-oriented
regex classes (`[^a-zA-Z0-9]`, `\d`) are modelled with ASCII character
tests.  Wall-clock polling is discretised into an observation stream
indexed by sample number.
-/

namespace KitchenSink

/-- A discovered item: `(story_id, title)`, both strings, exactly as the
scraper accumulates them in `all_stories`. -/
abbrev Item := String × String

/-! ### String helpers embedded from the Python string operations -/

/-- Characters removed by `re.sub(r'[<>:"/\\|?*]', '', title)` in
`is_story_already_downloaded` / `download_story`. -/
def forbiddenChar (c : Char) : Bool :=
  c = '<' || c = '>' || c = ':' || c = '"' || c = '/' || c = '\\' ||
  c = '|' || c = '?' || c = '*'

/-- Python `str.strip()` whitespace (ASCII part). -/
def isPyWs (c : Char) : Bool :=
  c = ' ' || c = '\t' || c = '\n' || c = '\r' || c = '\x0b' || c = '\x0c'

/-- Python `s.strip()` on a character list. -/
def pyStrip (l : List Char) : List Char :=
  ((l.dropWhile isPyWs).reverse.dropWhile isPyWs).reverse

/-- `safe_title` as computed in `download_story` and
`is_story_already_downloaded`:
`re.sub(r'[<>:"/\\|?*]', '', title)[:100].strip().replace(' ', '_')`. -/
def safeTitle (title : String) : String :=
  String.mk
    ((pyStrip ((title.data.filter (fun c => !forbiddenChar c)).take 100)).map
      (fun c => if c = ' ' then '_' else c))

/-- The canonical output filename `f"{story_id}_{safe_title}.epub"`. -/
def preferredName (sid title : String) : String :=
  sid ++ "_" ++ safeTitle title ++ ".epub"

/-- ASCII alphanumeric test, the class `[a-zA-Z0-9]`. -/
def isAlnumAscii (c : Char) : Bool :=
  ('a' ≤ c && c ≤ 'z') || ('A' ≤ c && c ≤ 'Z') || ('0' ≤ c && c ≤ '9')

/-- `re.sub(r'[^a-zA-Z0-9]', '', s.lower())` — lower-case then keep only
alphanumeric characters. -/
def normalizeAlnum (s : String) : String :=
  String.mk ((s.data.map Char.toLower).filter isAlnumAscii)

/-- Helper for `re.sub(r'\d+_?', '', s)`: the boolean records whether we
are right after a digit run whose optional trailing underscore may still
be consumed. -/
def stripDigitsAux : Bool → List Char → List Char
  | _, [] => []
  | pend, c :: rest =>
    if c.isDigit then stripDigitsAux true rest
    else if pend && c = '_' then stripDigitsAux false rest
    else c :: stripDigitsAux false rest

/-- `re.sub(r'\d+_?', '', s)` as used on `epub_title`. -/
def stripDigits (s : String) : String :=
  String.mk (stripDigitsAux false s.data)

/-- Python substring test `n in h` on character lists. -/
def subB (n : List Char) : List Char → Bool
  | [] => n.isEmpty
  | c :: t => n.isPrefixOf (c :: t) || subB n t

/-- `pathlib.Path(f).stem` for a name produced by `glob("*.epub")`:
drop the final `.epub` suffix, except that the bare name `".epub"` has no
suffix and is its own stem. -/
def stemEpub (f : String) : String :=
  if f = ".epub" then f else String.mk (f.data.take (f.data.length - 5))

/-- `self.output_dir.glob("*.epub")`: the files whose name ends in
`.epub`. -/
def epubsOf (files : List String) : List String :=
  files.filter (fun f => ".epub".data.isSuffixOf f.data)

/-! ### `is_story_already_downloaded` (sofurry_downloader.py lines 379-416) -/

/-- Stage 1: the three conventional filenames checked with `pf.exists()`. -/
def exactMatch (sid title : String) (files : List String) : Bool :=
  decide (preferredName sid title ∈ files) ||
  decide (safeTitle title ++ ".epub" ∈ files) ||
  decide (sid ++ ".epub" ∈ files)

/-- Stage 2: `story_id in epub_file.stem` over every existing `.epub`. -/
def idSubMatch (sid : String) (files : List String) : Bool :=
  (epubsOf files).any (fun f => subB sid.data (stemEpub f).data)

/-- Stage 3: fuzzy title containment, guarded by `if cleaned_title:` and
by both normalized lengths being `> 3`. -/
def fuzzyMatch (title : String) (files : List String) : Bool :=
  let ct := normalizeAlnum title
  !ct.data.isEmpty &&
  (epubsOf files).any (fun f =>
    let et := stripDigits (normalizeAlnum (stemEpub f))
    (subB ct.data et.data || subB et.data ct.data) &&
    decide (3 < ct.data.length) && decide (3 < et.data.length))

/-- `is_story_already_downloaded(story_id, title)` against a directory
listing `files`: exact template match, then ID-substring match, then the
fuzzy title match. -/
def is_story_already_downloaded (sid title : String) (files : List String) : Bool :=
  exactMatch sid title files || idSubMatch sid files || fuzzyMatch title files

/-! ### `download_story` / `download_all` (lines 418-502)

The browser side effect is abstracted to its observable outcome on the
output directory: a failed attempt leaves the directory unchanged; a
successful attempt materializes one new `.epub` under the name the
browser chose.  When that name differs from the preferred
`{story_id}_{safe_title}.epub`, the code attempts a rename that is only
best-effort (`except: pass`, line 457): on failure the file keeps the
browser-chosen name and the call still reports success.  The per-item
environment is a pair of oracles: `dl n` the browser-chosen filename of
the `n`-th attempt (`none` = the download failed), `ren n` whether its
rename succeeds. -/

/-- `DownloadOutcome` of one item. -/
inductive Outcome
  | skipped
  | downloaded
  | failed
deriving DecidableEq, Repr

/-- One `download_story(story_id, title)` call: the pre-download
`is_story_already_downloaded` check short-circuits to a skip before any
side effect; otherwise the browser either produces no file (failure) or
a new `.epub` under `dlName`, which is renamed to the preferred name
only when the rename does not raise (`except: pass` keeps `dlName` and
still returns success). -/
def download_story (sid title : String) (files : List String)
    (dl : Option String) (ren : Bool) : List String × Outcome :=
  if is_story_already_downloaded sid title files then (files, .skipped)
  else
    match dl with
    | none => (files, .failed)
    | some dlName =>
      if dlName = preferredName sid title then (files ++ [dlName], .downloaded)
      else if ren then (files ++ [preferredName sid title], .downloaded)
      else (files ++ [dlName], .downloaded)

/-- `download_all`'s per-item loop over the crawl result, threading the
output directory contents; `dl n` / `ren n` are the `n`-th attempted
item's browser-chosen filename and rename success. -/
def runDownloads : List Item → List String → (ℕ → Option String) → (ℕ → Bool) →
    List String × List Outcome
  | [], files, _, _ => (files, [])
  | (sid, t) :: rest, files, dl, ren =>
    let r := download_story sid t files (dl 0) (ren 0)
    let rr := runDownloads rest r.1 (fun n => dl (n + 1)) (fun n => ren (n + 1))
    (rr.1, r.2 :: rr.2)

/-! ### The pagination loop `get_story_links` (lines 215-352)

The Fetcher is a function `fetch : ℕ → Option (List Item)`: `some items`
is the parsed story links of that page, `none` is a failed page fetch
(the session-expiry redirect check, or a raised navigation error) — the
code then returns `[]`, dropping everything collected so far.  Folder
(group) references appear only on page 1 and are given as the extracted
`folder_info_list`, each with the stories its own listing page shows.
`seen_story_ids` is a Python `set`; it is modelled as a list used only
through membership. -/

/-- A folder reference found on page 1: its title (after the
`or 'Unnamed Folder'` defaulting done during extraction) and the story
items its listing page resolves to, in page order. -/
structure Folder where
  title : String
  stories : List Item
deriving DecidableEq, Repr

/-- `get_first_story_from_folder`: take the first story of the folder's
listing, if any, and label it `f"[FOLDER: {folder_title}] {title}"`;
a folder with no stories yields `None`. -/
def getFirstStoryFromFolder (f : Folder) : Option Item :=
  match f.stories with
  | [] => none
  | (sid, t) :: _ => some (sid, "[FOLDER: " ++ f.title ++ "] " ++ t)

/-- The representative items of the folder list, in folder order
(folders with no stories are skipped). -/
def folderLabels (folders : List Folder) : List Item :=
  folders.filterMap getFirstStoryFromFolder

/-- The per-page dedup filter: keep each item whose id is not yet seen,
adding the ids of kept items to the seen-set as the loop does
(`seen_story_ids.add(story_id)` before appending). -/
def pickNew : List Item → List String → List Item
  | [], _ => []
  | (sid, t) :: rest, seen =>
    if sid ∈ seen then pickNew rest seen
    else (sid, t) :: pickNew rest (sid :: seen)

/-- The story ids of a list of items. -/
def idsOf (l : List Item) : List String := l.map Prod.fst

/-- All items appended on one page: the new individual stories, then (on
page 1 only) the new folder representatives, deduplicated against the
seen-set as updated by the page's own items. -/
def pageNew (items : List Item) (folders : List Folder) (page : ℕ)
    (seen : List String) : List Item :=
  pickNew items seen ++
    (if page = 1 then
      pickNew (folderLabels folders) (idsOf (pickNew items seen) ++ seen)
     else [])

/-- Result of one crawl run: `all_stories`, the number of listing-page
fetches, the number of folder-listing fetches, and whether the run was
aborted (returned `[]` on a failed fetch). -/
structure CrawlOut where
  stories : List Item
  pageFetches : ℕ
  groupFetches : ℕ
  aborted : Bool
deriving DecidableEq, Repr

/-- The folder-fetch counter update: `get_first_story_from_folder` is
called once per extracted folder, and only during page 1's processing. -/
def gfStep (page gf : ℕ) (folders : List Folder) : ℕ :=
  if page = 1 then gf + folders.length else gf

/-- The `while page <= max_pages` loop, with fuel `101 - page`.  The
mutable state: `acc` = `all_stories`, `seen` = `seen_story_ids`,
`last` = `last_page_count`, `dup` = `consecutive_duplicate_pages`;
`pf`/`gf` count page and folder fetches.  The three break conditions are
the code's, with `folder_elements` expanded to `folders` on page 1 and to
`[]` on later pages (where the `page > 1` disjunct already holds). -/
def crawlGo (fetch : ℕ → Option (List Item)) (folders : List Folder) :
    ℕ → ℕ → List Item → List String → ℕ → ℕ → ℕ → ℕ → CrawlOut
  | 0, _, acc, _, _, _, pf, gf => ⟨acc, pf, gf, false⟩
  | fuel + 1, page, acc, seen, last, dup, pf, gf =>
    match fetch page with
    | none => ⟨[], pf + 1, gf, true⟩
    | some items =>
      -- `if not story_elements and not folder_elements: break`
      if items = [] ∧ (page = 1 → folders = []) then ⟨acc, pf + 1, gf, false⟩
      else
        let news := pageNew items folders page seen
        let gf1 := gfStep page gf folders
        -- break 1: `page_stories == 0 and (page > 1 or len(folder_elements) == 0)`
        if items.length = 0 ∧ (1 < page ∨ folders = []) then ⟨acc ++ news, pf + 1, gf1, false⟩
        -- break 2: `new_stories_on_page == 0 and not (page == 1 and folder_elements)`
        else if news.length = 0 ∧ ¬(page = 1 ∧ folders ≠ []) then
          ⟨acc ++ news, pf + 1, gf1, false⟩
        -- break 3: pagination-loop detection on repeated page story counts
        else if items.length = last ∧ 1 < page then
          if 3 ≤ dup + 1 then ⟨acc ++ news, pf + 1, gf1, false⟩
          else crawlGo fetch folders fuel (page + 1) (acc ++ news) (idsOf news ++ seen)
                 items.length (dup + 1) (pf + 1) gf1
        else crawlGo fetch folders fuel (page + 1) (acc ++ news) (idsOf news ++ seen)
               items.length 0 (pf + 1) gf1

/-- `get_story_links`: drive the loop from page 1 with `max_pages = 100`,
empty accumulator and seen-set. -/
def get_story_links (fetch : ℕ → Option (List Item)) (folders : List Folder) : CrawlOut :=
  crawlGo fetch folders 100 1 [] [] 0 0 0 0

/-- The raw discovery stream from page `p` over `fuel` pages: each page's
items in listing order, with the folder representatives inserted right
after page 1's individual items. -/
def streamSeg (fetch : ℕ → Option (List Item)) (folders : List Folder) :
    ℕ → ℕ → List Item
  | _, 0 => []
  | p, fuel + 1 =>
    (fetch p).getD [] ++ (if p = 1 then folderLabels folders else []) ++
      streamSeg fetch folders (p + 1) fuel

/-! ### `wait_for_download` (lines 354-377)

The polling loop is discretised: `obs n` is the state of the expected
file at the `n`-th one-second sample (`none` = absent, `some sz` = its
size `st_size`).  Each loop iteration with the file present takes two
further samples (`size1`, `size2`); `fuel` is how many loop iterations
the `timeout` budget allows, after which the code's final
`return filename.exists()` runs. -/

/-- `wait_for_download(filename, timeout)` over an observation stream. -/
def waitForDownload (obs : ℕ → Option ℕ) : ℕ → ℕ → Bool
  | 0, t => (obs t).isSome
  | fuel + 1, t =>
    match obs t with
    | some _ =>
      if (obs (t + 1)).getD 0 = (obs (t + 2)).getD 0 ∧ 0 < (obs (t + 1)).getD 0 then true
      else waitForDownload obs fuel (t + 3)
    | none => waitForDownload obs fuel (t + 1)

/-- The sample index at which `wait_for_download` runs its final
`return filename.exists()` (only meaningful when no stability pair was
accepted earlier). -/
def waitExitTime (obs : ℕ → Option ℕ) : ℕ → ℕ → ℕ
  | 0, t => t
  | fuel + 1, t =>
    match obs t with
    | some _ =>
      if (obs (t + 1)).getD 0 = (obs (t + 2)).getD 0 ∧ 0 < (obs (t + 1)).getD 0 then t
      else waitExitTime obs fuel (t + 3)
    | none => waitExitTime obs fuel (t + 1)

/-- A file that exists from the start but stays at zero bytes forever. -/
def zeroByteObs : ℕ → Option ℕ := fun _ => some 0

/-- A stable four-byte file, for the witness. -/
def stableObs : ℕ → Option ℕ := fun _ => some 4

/-! ### `main` (lines 508-549)

`main` parses arguments, asks for credentials, builds the downloader and
runs login + `download_all` under `try/except`; every branch — browser
init failure, login failure, a raised error, an aborted crawl — only
prints a message and falls off the end of `main`, so the interpreter
always exits with status 0 (`sys.exit` is never called). -/

structure MainOut where
  stories : List Item
  aborted : Bool
  exitCode : ℕ
deriving DecidableEq, Repr

/-- The `main` control flow over the crawl environment: `initOk` is
browser initialization, `loginOk` the login attempt.  Whatever happens,
`main` returns normally and the process exit code is 0. -/
def mainRun (initOk loginOk : Bool) (fetch : ℕ → Option (List Item))
    (folders : List Folder) : MainOut :=
  if ¬initOk then ⟨[], true, 0⟩
  else if ¬loginOk then ⟨[], true, 0⟩
  else
    let c := get_story_links fetch folders
    ⟨c.stories, c.aborted, 0⟩

/-- The concrete listing of the C5 counterexample: page 1 succeeds with
one story, every later page's fetch fails. -/
def c5Fetch : ℕ → Option (List Item) :=
  fun p => if p = 1 then some [("7", "A")] else none

/-! ### `start_proxy_server` / `stop_proxy_server` (proxy.py lines 430-480)

The observable state: the global `proxy_process` handle (modelled by the
model name the spawned process serves), the written
`ollama_openai_proxy.py` script file, and the `server_state` database row
(`ServerStateDB.set_server_state` deletes the row and inserts one only
when `is_running`). -/

/-- The `server_state` table row. -/
structure ServerRow where
  is_running : Bool
  model_name : Option String
  port : Option ℕ
deriving DecidableEq, Repr

/-- `CLINE_PROXY_PORT` from config.py. -/
def clinePort : ℕ := 11435

/-- `ServerStateDB.set_server_state`: clear the row, re-insert only when
running. -/
def set_server_state (running : Bool) (m : Option String) (p : Option ℕ) :
    Option ServerRow :=
  if running then some ⟨running, m, p⟩ else none

/-- `create_proxy_script(model_name)` — the generated script text,
abstracted to its one parameter. -/
def create_proxy_script (modelName : String) : String :=
  "MODEL_NAME = " ++ modelName

/-- The process-management state touched by the proxy API. -/
structure ProxyState where
  proc : Option String
  script : Option String
  serverRow : Option ServerRow
deriving DecidableEq, Repr

/-- `start_proxy_server(model_name)`: early `return False` while a
process handle exists, before any side effect; otherwise write the
script, spawn the process, record the database state, `return True`. -/
def start_proxy_server (st : ProxyState) (modelName : String) : ProxyState × Bool :=
  match st.proc with
  | some _ => (st, false)
  | none =>
    (⟨some modelName, some (create_proxy_script modelName),
      set_server_state true (some modelName) (some clinePort)⟩, true)

/-- `stop_proxy_server()`: terminate and drop the handle, delete the
script, clear the database state; `return False` when nothing is in
flight. -/
def stop_proxy_server (st : ProxyState) : ProxyState × Bool :=
  match st.proc with
  | some _ => (⟨none, none, set_server_state false none none⟩, true)
  | none => (st, false)

/-! ### `ModelDB.save_notes` (database.py lines 97-141) -/

/-- One row of `model_usage`.  Timestamps are abstract naturals. -/
structure ModelRecord where
  model_name : String
  last_used : Option ℕ
  times_used : ℕ
  notes : Option String
  rating : Option Int
  performance_notes : Option String
  custom_params : Option String
  created_at : Option ℕ
deriving DecidableEq, Repr

/-- One `SET` clause of the dynamically built `UPDATE`. -/
inductive UpdClause
  | notes (v : String)
  | rating (v : Int)
  | performance_notes (v : String)
  | custom_params (v : String)
deriving DecidableEq, Repr

/-- The `updates` list built from the provided (non-`None`) arguments, in
source order. -/
def updClauses (notes : Option String) (rating : Option Int)
    (performance_notes custom_params : Option String) : List UpdClause :=
  (match notes with | some v => [UpdClause.notes v] | none => []) ++
  (match rating with | some v => [UpdClause.rating v] | none => []) ++
  (match performance_notes with | some v => [UpdClause.performance_notes v] | none => []) ++
  (match custom_params with | some v => [UpdClause.custom_params v] | none => [])

/-- Apply one `SET` clause to a row. -/
def applyClause (row : ModelRecord) : UpdClause → ModelRecord
  | .notes v => { row with notes := some v }
  | .rating v => { row with rating := some v }
  | .performance_notes v => { row with performance_notes := some v }
  | .custom_params v => { row with custom_params := some v }

/-- `ModelDB.save_notes`: if a row with this `model_name` exists, run the
built `UPDATE` only when at least one field was provided (`if updates:`);
otherwise `INSERT` a fresh row (`times_used` defaults to 0, `created_at`
to the current timestamp). -/
def save_notes (db : List ModelRecord) (name : String) (notes : Option String)
    (rating : Option Int) (performance_notes custom_params : Option String)
    (now : ℕ) : List ModelRecord :=
  if db.any (fun row => decide (row.model_name = name)) then
    let ups := updClauses notes rating performance_notes custom_params
    if ups.isEmpty then db
    else db.map (fun row =>
      if row.model_name = name then ups.foldl applyClause row else row)
  else
    db ++ [⟨name, some now, 0, notes, rating, performance_notes, custom_params, some now⟩]

/-! ### Monotonicity of the on-disk check and idempotence of the executor -/

theorem epubsOf_mono {files files' : List String} (h : ∀ x ∈ files, x ∈ files') :
    ∀ x ∈ epubsOf files, x ∈ epubsOf files' := by
  intro x hx
  rw [epubsOf, List.mem_filter] at hx ⊢
  exact ⟨h x hx.1, hx.2⟩

theorem exactMatch_mono {files files' : List String} (h : ∀ x ∈ files, x ∈ files')
    (sid title : String) (hm : exactMatch sid title files = true) :
    exactMatch sid title files' = true := by
  simp only [exactMatch, Bool.or_eq_true, decide_eq_true_eq] at hm ⊢
  rcases hm with (h1 | h1) | h1
  · exact Or.inl (Or.inl (h _ h1))
  · exact Or.inl (Or.inr (h _ h1))
  · exact Or.inr (h _ h1)

theorem idSubMatch_mono {files files' : List String} (h : ∀ x ∈ files, x ∈ files')
    (sid : String) (hm : idSubMatch sid files = true) :
    idSubMatch sid files' = true := by
  simp only [idSubMatch, List.any_eq_true] at hm ⊢
  obtain ⟨f, hf, hp⟩ := hm
  exact ⟨f, epubsOf_mono h f hf, hp⟩

theorem fuzzyMatch_mono {files files' : List String} (h : ∀ x ∈ files, x ∈ files')
    (title : String) (hm : fuzzyMatch title files = true) :
    fuzzyMatch title files' = true := by
  simp only [fuzzyMatch, Bool.and_eq_true, List.any_eq_true] at hm ⊢
  obtain ⟨hne, f, hf, hp⟩ := hm
  exact ⟨hne, f, epubsOf_mono h f hf, hp⟩

theorem already_downloaded_mono {files files' : List String}
    (h : ∀ x ∈ files, x ∈ files') (sid title : String)
    (hm : is_story_already_downloaded sid title files = true) :
    is_story_already_downloaded sid title files' = true := by
  simp only [is_story_already_downloaded, Bool.or_eq_true] at hm ⊢
  rcases hm with (h1 | h1) | h1
  · exact Or.inl (Or.inl (exactMatch_mono h sid title h1))
  · exact Or.inl (Or.inr (idSubMatch_mono h sid h1))
  · exact Or.inr (fuzzyMatch_mono h title h1)

theorem already_downloaded_of_preferred_mem {sid title : String} {files : List String}
    (h : preferredName sid title ∈ files) :
    is_story_already_downloaded sid title files = true := by
  simp only [is_story_already_downloaded, exactMatch, Bool.or_eq_true, decide_eq_true_eq]
  exact Or.inl (Or.inl (Or.inl (Or.inl h)))

theorem download_story_extends (sid t : String) (files : List String)
    (dl : Option String) (ren : Bool) :
    ∃ ext, (download_story sid t files dl ren).1 = files ++ ext := by
  rw [download_story.eq_def]
  split
  · exact ⟨[], by simp⟩
  · cases dl with
    | none => exact ⟨[], by simp⟩
    | some dlName =>
      dsimp only
      split_ifs
      · exact ⟨[dlName], rfl⟩
      · exact ⟨[preferredName sid t], rfl⟩
      · exact ⟨[dlName], rfl⟩

theorem runDownloads_extends (items : List Item) (files : List String)
    (dl : ℕ → Option String) (ren : ℕ → Bool) :
    ∃ ext, (runDownloads items files dl ren).1 = files ++ ext := by
  induction items generalizing files dl ren with
  | nil => exact ⟨[], by simp [runDownloads]⟩
  | cons hd rest ih =>
    obtain ⟨sid, t⟩ := hd
    obtain ⟨e1, he1⟩ := download_story_extends sid t files (dl 0) (ren 0)
    obtain ⟨e2, he2⟩ := ih (download_story sid t files (dl 0) (ren 0)).1
      (fun n => dl (n + 1)) (fun n => ren (n + 1))
    refine ⟨e1 ++ e2, ?_⟩
    simp only [runDownloads]
    rw [he2, he1, List.append_assoc]

theorem all_matched_of_no_failed (items : List Item) (files : List String)
    (dl : ℕ → Option String) (ren : ℕ → Bool)
    (h : Outcome.failed ∉ (runDownloads items files dl ren).2)
    (hren : ∀ n, ren n = true) :
    ∀ it ∈ items,
      is_story_already_downloaded it.1 it.2 (runDownloads items files dl ren).1 = true := by
  induction items generalizing files dl ren with
  | nil => intro it hit; cases hit
  | cons hd rest ih =>
    obtain ⟨sid, t⟩ := hd
    simp only [runDownloads, List.mem_cons, not_or] at h
    obtain ⟨hhd, htail⟩ := h
    obtain ⟨ext, hext⟩ := runDownloads_extends rest
      (download_story sid t files (dl 0) (ren 0)).1
      (fun n => dl (n + 1)) (fun n => ren (n + 1))
    have hsup : ∀ x ∈ (download_story sid t files (dl 0) (ren 0)).1,
        x ∈ (runDownloads rest (download_story sid t files (dl 0) (ren 0)).1
              (fun n => dl (n + 1)) (fun n => ren (n + 1))).1 := by
      intro x hx; rw [hext]; exact List.mem_append_left _ hx
    intro it hit
    simp only [List.mem_cons] at hit
    simp only [runDownloads]
    rcases hit with hit | hit
    · -- the head item is matched on the final directory contents
      subst hit
      refine already_downloaded_mono hsup sid t ?_
      by_cases hm : is_story_already_downloaded sid t files = true
      · have h1 : (download_story sid t files (dl 0) (ren 0)).1 = files := by
          rw [download_story.eq_def, if_pos hm]
        rw [h1]; exact hm
      · cases hdl : dl 0 with
        | none =>
          exact absurd (by rw [hdl, download_story.eq_def, if_neg hm] :
            Outcome.failed = (download_story sid t files (dl 0) (ren 0)).2) hhd
        | some dlName =>
          have h1 : (download_story sid t files (some dlName) (ren 0)).1
              = files ++ [preferredName sid t] := by
            rw [download_story.eq_def, if_neg hm]
            dsimp only
            by_cases hdn : dlName = preferredName sid t
            · rw [if_pos hdn, hdn]
            · rw [if_neg hdn, if_pos (hren 0)]
          rw [h1]
          exact already_downloaded_of_preferred_mem
            (List.mem_append_right _ (List.mem_singleton.mpr rfl))
    · exact ih (download_story sid t files (dl 0) (ren 0)).1
        (fun n => dl (n + 1)) (fun n => ren (n + 1)) htail (fun n => hren (n + 1)) it hit

theorem runDownloads_all_skipped (items : List Item) (files : List String)
    (dl : ℕ → Option String) (ren : ℕ → Bool)
    (h : ∀ it ∈ items, is_story_already_downloaded it.1 it.2 files = true) :
    runDownloads items files dl ren = (files, items.map fun _ => Outcome.skipped) := by
  induction items generalizing dl ren with
  | nil => simp [runDownloads]
  | cons hd rest ih =>
    obtain ⟨sid, t⟩ := hd
    have hh : is_story_already_downloaded sid t files = true :=
      h (sid, t) (List.mem_cons_self _ _)
    have hstep : download_story sid t files (dl 0) (ren 0) = (files, Outcome.skipped) := by
      rw [download_story.eq_def, if_pos hh]
    simp only [runDownloads, hstep, ih (fun n => dl (n + 1)) (fun n => ren (n + 1))
      (fun it hit => h it (List.mem_cons_of_mem _ hit)), List.map_cons]

/-- C1 (amended): idempotence of the full engine holds on the
canonical-name path — if a first run over the crawl result completes
with no failed item AND every rename to the preferred
`{story_id}_{safe_title}.epub` name succeeds, then a second run over the
same crawl result and output directory classifies every item as
skipped-existing via the on-disk check, performs no download side
effect, and leaves the directory unchanged.  (When a best-effort rename
fails, the file keeps the browser-chosen name, which can escape every
on-disk matching rule; see the counterexample.) -/
theorem c1_second_run_idempotent (items : List Item) (files0 : List String)
    (dl1 : ℕ → Option String) (ren1 : ℕ → Bool)
    (h : Outcome.failed ∉ (runDownloads items files0 dl1 ren1).2)
    (hren : ∀ n, ren1 n = true) (dl2 : ℕ → Option String) (ren2 : ℕ → Bool) :
    runDownloads items (runDownloads items files0 dl1 ren1).1 dl2 ren2
      = ((runDownloads items files0 dl1 ren1).1, items.map fun _ => Outcome.skipped) :=
  runDownloads_all_skipped items _ dl2 ren2
    (all_matched_of_no_failed items files0 dl1 ren1 h hren)

/-- Witness for C1 at a concrete one-item listing whose rename succeeds. -/
theorem c1_second_run_idempotent_witness :
    (Outcome.failed ∉
      (runDownloads [("1", "A")] [] (fun _ => some "dl.epub") (fun _ => true)).2) ∧
    runDownloads [("1", "A")]
        (runDownloads [("1", "A")] [] (fun _ => some "dl.epub") (fun _ => true)).1
        (fun _ => none) (fun _ => false)
      = ((runDownloads [("1", "A")] [] (fun _ => some "dl.epub") (fun _ => true)).1,
         [("1", "A")].map fun _ => Outcome.skipped) :=
  ⟨by decide,
   c1_second_run_idempotent [("1", "A")] [] (fun _ => some "dl.epub") (fun _ => true)
     (by decide) (fun _ => rfl) (fun _ => none) (fun _ => false)⟩

/-- C1 counterexample: the best-effort rename (`except: pass`, line 457)
can leave a successful first-run download under the browser-chosen name.
For item id `123`, title `"Abc"`, an empty output directory and browser
filename `export.epub` with the rename failing, the first run completes
with one successful download, yet the second run matches the file by
none of the three on-disk rules (no exact template name, no id
substring in the stem, and the fuzzy guard blocks the length-3
normalized title), so it downloads the item again instead of
classifying every item skipped-existing. -/
theorem c1_counterexample :
    (runDownloads [("123", "Abc")] [] (fun _ => some "export.epub") (fun _ => false)).2
      = [Outcome.downloaded] ∧
    (runDownloads [("123", "Abc")]
        (runDownloads [("123", "Abc")] [] (fun _ => some "export.epub")
          (fun _ => false)).1
        (fun _ => some "export.epub") (fun _ => false)).2
      = [Outcome.downloaded] ∧
    ¬(runDownloads [("123", "Abc")]
        (runDownloads [("123", "Abc")] [] (fun _ => some "export.epub")
          (fun _ => false)).1
        (fun _ => some "export.epub") (fun _ => false)).2
      = [Outcome.skipped] := by
  decide

/-! ### The fuzzy-match guard (C6) -/

/-- Characterization of the fuzzy stage: it fires exactly when some
existing `.epub`'s digit-stripped normalized stem and the candidate's
normalized title contain one another and both have length `> 3`. -/
theorem fuzzyMatch_iff (title : String) (files : List String) :
    fuzzyMatch title files = true ↔
      ∃ f ∈ epubsOf files,
        (subB (normalizeAlnum title).data
            (stripDigits (normalizeAlnum (stemEpub f))).data = true ∨
         subB (stripDigits (normalizeAlnum (stemEpub f))).data
            (normalizeAlnum title).data = true) ∧
        3 < (normalizeAlnum title).data.length ∧
        3 < (stripDigits (normalizeAlnum (stemEpub f))).data.length := by
  constructor
  · intro hf
    simp only [fuzzyMatch, Bool.and_eq_true, List.any_eq_true, Bool.or_eq_true,
      decide_eq_true_eq] at hf
    obtain ⟨-, f, hfm, ⟨hsub, h1⟩, h2⟩ := hf
    exact ⟨f, hfm, hsub, h1, h2⟩
  · rintro ⟨f, hfm, hsub, h1, h2⟩
    have hne : (normalizeAlnum title).data.isEmpty = false := by
      cases hc : (normalizeAlnum title).data with
      | nil => rw [hc] at h1; simp at h1
      | cons a l => rfl
    simp only [fuzzyMatch, Bool.and_eq_true, List.any_eq_true, Bool.or_eq_true,
      decide_eq_true_eq, hne, Bool.not_false, true_and]
    exact ⟨f, hfm, ⟨hsub, h1⟩, h2⟩

/-- C6: a fuzzy (normalized-label-containment) match is reported only
when both normalized strings have length strictly greater than 3; in
particular a label whose normalized form has length `≤ 3` never produces
a fuzzy match, so only the exact-filename and identity-substring stages
can match it. -/
theorem c6_fuzzy_guard (sid title : String) (files : List String) :
    (fuzzyMatch title files = true →
       3 < (normalizeAlnum title).data.length ∧
       ∃ f ∈ epubsOf files,
         3 < (stripDigits (normalizeAlnum (stemEpub f))).data.length) ∧
    ((normalizeAlnum title).data.length ≤ 3 →
       fuzzyMatch title files = false ∧
       is_story_already_downloaded sid title files
         = (exactMatch sid title files || idSubMatch sid files)) := by
  constructor
  · intro hf
    obtain ⟨f, hfm, -, h1, h2⟩ := (fuzzyMatch_iff title files).mp hf
    exact ⟨h1, f, hfm, h2⟩
  · intro hle
    have hff : fuzzyMatch title files = false := by
      cases hfz : fuzzyMatch title files with
      | false => rfl
      | true =>
        obtain ⟨f, -, -, h1, -⟩ := (fuzzyMatch_iff title files).mp hfz
        exact absurd h1 (not_lt.mpr hle)
    refine ⟨hff, ?_⟩
    simp [is_story_already_downloaded, hff]

/-- Witness for C6 at a concrete short title. -/
theorem c6_fuzzy_guard_witness :
    ((normalizeAlnum "ab").data.length ≤ 3) ∧
    (fuzzyMatch "ab" ["42_tale.epub"] = false ∧
     is_story_already_downloaded "9" "ab" ["42_tale.epub"]
       = (exactMatch "9" "ab" ["42_tale.epub"] || idSubMatch "9" ["42_tale.epub"])) :=
  ⟨by decide, (c6_fuzzy_guard "9" "ab" ["42_tale.epub"]).2 (by decide)⟩

/-! ### Lemmas about the per-page dedup filter -/

theorem pickNew_sublist (items : List Item) (seen : List String) :
    (pickNew items seen).Sublist items := by
  induction items generalizing seen with
  | nil => exact List.Sublist.refl _
  | cons hd rest ih =>
    obtain ⟨sid, t⟩ := hd
    rw [pickNew]
    split
    · exact (ih seen).cons _
    · exact (ih (sid :: seen)).cons₂ _

theorem pickNew_ids_not_seen (items : List Item) (seen : List String) :
    ∀ x ∈ idsOf (pickNew items seen), x ∉ seen := by
  induction items generalizing seen with
  | nil => intro x hx; simp [pickNew, idsOf] at hx
  | cons hd rest ih =>
    obtain ⟨sid, t⟩ := hd
    intro x hx
    by_cases hs : sid ∈ seen
    · rw [pickNew, if_pos hs] at hx
      exact ih seen x hx
    · rw [pickNew, if_neg hs] at hx
      simp only [idsOf, List.map_cons, List.mem_cons] at hx
      rcases hx with rfl | hx
      · exact hs
      · intro hxs
        exact ih (sid :: seen) x hx (List.mem_cons_of_mem _ hxs)

theorem pickNew_ids_nodup (items : List Item) (seen : List String) :
    (idsOf (pickNew items seen)).Nodup := by
  induction items generalizing seen with
  | nil => simp [pickNew, idsOf]
  | cons hd rest ih =>
    obtain ⟨sid, t⟩ := hd
    by_cases hs : sid ∈ seen
    · rw [pickNew, if_pos hs]; exact ih seen
    · rw [pickNew, if_neg hs]
      simp only [idsOf, List.map_cons]
      refine List.nodup_cons.mpr ⟨fun hmem => ?_, ih (sid :: seen)⟩
      exact pickNew_ids_not_seen rest (sid :: seen) _ hmem (List.mem_cons_self _ _)

theorem idsOf_append (a b : List Item) : idsOf (a ++ b) = idsOf a ++ idsOf b :=
  List.map_append _ a b

theorem pageNew_sublist (items : List Item) (folders : List Folder) (page : ℕ)
    (seen : List String) :
    (pageNew items folders page seen).Sublist
      (items ++ (if page = 1 then folderLabels folders else [])) := by
  rw [pageNew]
  by_cases hp : page = 1
  · rw [if_pos hp, if_pos hp]
    exact (pickNew_sublist items seen).append (pickNew_sublist _ _)
  · rw [if_neg hp, if_neg hp]
    exact (pickNew_sublist items seen).append (List.Sublist.refl [])

theorem pageNew_ids_not_seen (items : List Item) (folders : List Folder) (page : ℕ)
    (seen : List String) :
    ∀ x ∈ idsOf (pageNew items folders page seen), x ∉ seen := by
  intro x hx
  rw [pageNew, idsOf_append, List.mem_append] at hx
  rcases hx with hx | hx
  · exact pickNew_ids_not_seen items seen x hx
  · by_cases hp : page = 1
    · rw [if_pos hp] at hx
      intro hxs
      exact pickNew_ids_not_seen (folderLabels folders) _ x hx
        (List.mem_append_right _ hxs)
    · rw [if_neg hp] at hx
      simp [idsOf] at hx

theorem pageNew_ids_nodup (items : List Item) (folders : List Folder) (page : ℕ)
    (seen : List String) :
    (idsOf (pageNew items folders page seen)).Nodup := by
  rw [pageNew, idsOf_append]
  refine List.nodup_append.mpr ⟨pickNew_ids_nodup _ _, ?_, ?_⟩
  · by_cases hp : page = 1
    · rw [if_pos hp]; exact pickNew_ids_nodup _ _
    · rw [if_neg hp]; simp [idsOf]
  · intro a ha hb
    by_cases hp : page = 1
    · rw [if_pos hp] at hb
      exact pickNew_ids_not_seen _ _ a hb (List.mem_append_left _ ha)
    · rw [if_neg hp] at hb
      simp [idsOf] at hb

/-! ### Lemmas about the pagination loop -/

theorem crawlGo_pageFetches_le (fetch : ℕ → Option (List Item)) (folders : List Folder) :
    ∀ fuel page acc seen last dup pf gf,
      (crawlGo fetch folders fuel page acc seen last dup pf gf).pageFetches ≤ pf + fuel := by
  intro fuel
  induction fuel with
  | zero =>
    intro page acc seen last dup pf gf
    rw [crawlGo]
    show pf ≤ pf + 0
    omega
  | succ n ih =>
    intro page acc seen last dup pf gf
    rw [crawlGo]
    cases hf : fetch page with
    | none =>
      show pf + 1 ≤ pf + (n + 1)
      omega
    | some items =>
      dsimp only
      split_ifs with h1 h2 h3 h4 h5
      · show pf + 1 ≤ pf + (n + 1)
        omega
      · show pf + 1 ≤ pf + (n + 1)
        omega
      · show pf + 1 ≤ pf + (n + 1)
        omega
      · show pf + 1 ≤ pf + (n + 1)
        omega
      · exact le_trans (ih (page + 1) _ _ _ _ (pf + 1) _) (by omega)
      · exact le_trans (ih (page + 1) _ _ _ _ (pf + 1) _) (by omega)

theorem crawlGo_not_aborted (fetch : ℕ → Option (List Item)) (folders : List Folder)
    (h : ∀ p, fetch p ≠ none) :
    ∀ fuel page acc seen last dup pf gf,
      (crawlGo fetch folders fuel page acc seen last dup pf gf).aborted = false := by
  intro fuel
  induction fuel with
  | zero =>
    intro page acc seen last dup pf gf
    rw [crawlGo]
  | succ n ih =>
    intro page acc seen last dup pf gf
    rw [crawlGo]
    cases hf : fetch page with
    | none => exact absurd hf (h page)
    | some items =>
      dsimp only
      split_ifs with h1 h2 h3 h4 h5
      · rfl
      · rfl
      · rfl
      · rfl
      · exact ih (page + 1) _ _ _ _ (pf + 1) _
      · exact ih (page + 1) _ _ _ _ (pf + 1) _

theorem crawlGo_aborted_nil (fetch : ℕ → Option (List Item)) (folders : List Folder) :
    ∀ fuel page acc seen last dup pf gf,
      (crawlGo fetch folders fuel page acc seen last dup pf gf).aborted = true →
      (crawlGo fetch folders fuel page acc seen last dup pf gf).stories = [] := by
  intro fuel
  induction fuel with
  | zero =>
    intro page acc seen last dup pf gf h
    rw [crawlGo] at h
    simp at h
  | succ n ih =>
    intro page acc seen last dup pf gf h
    rw [crawlGo] at h ⊢
    cases hf : fetch page with
    | none => rfl
    | some items =>
      rw [hf] at h
      dsimp only at h ⊢
      split_ifs at h ⊢ with h1 h2 h3 h4 h5 <;>
        exact ih (page + 1) _ _ _ _ (pf + 1) _ h

theorem crawlGo_groupFetches_of_two_le (fetch : ℕ → Option (List Item))
    (folders : List Folder) :
    ∀ fuel page acc seen last dup pf gf, 2 ≤ page →
      (crawlGo fetch folders fuel page acc seen last dup pf gf).groupFetches = gf := by
  intro fuel
  induction fuel with
  | zero =>
    intro page acc seen last dup pf gf _
    rw [crawlGo]
  | succ n ih =>
    intro page acc seen last dup pf gf hp
    have hp1 : ¬page = 1 := by omega
    rw [crawlGo]
    cases hf : fetch page with
    | none => rfl
    | some items =>
      dsimp only
      simp only [gfStep, if_neg hp1]
      split_ifs with h1 h2 h3 h4 h5
      · rfl
      · rfl
      · rfl
      · rfl
      · exact ih (page + 1) _ _ _ _ (pf + 1) _ (by omega)
      · exact ih (page + 1) _ _ _ _ (pf + 1) _ (by omega)

theorem get_story_links_groupFetches (fetch : ℕ → Option (List Item))
    (folders : List Folder) (h : fetch 1 ≠ none) :
    (get_story_links fetch folders).groupFetches = folders.length := by
  rw [get_story_links, show (100 : ℕ) = 99 + 1 from rfl, crawlGo]
  cases hf : fetch 1 with
  | none => exact absurd hf h
  | some items =>
    dsimp only
    split_ifs with h1 h2 h3 h4 h5
    · have : folders = [] := h1.2 rfl
      simp [this]
    · simp [gfStep]
    · simp [gfStep]
    · simp [gfStep]
    · rw [crawlGo_groupFetches_of_two_le]
      · simp [gfStep]
      · omega
    · rw [crawlGo_groupFetches_of_two_le]
      · simp [gfStep]
      · omega

theorem crawlGo_stories_spec (fetch : ℕ → Option (List Item)) (folders : List Folder) :
    ∀ fuel page acc seen last dup pf gf,
      (crawlGo fetch folders fuel page acc seen last dup pf gf).stories = [] ∨
      ∃ d, (crawlGo fetch folders fuel page acc seen last dup pf gf).stories = acc ++ d ∧
        d.Sublist (streamSeg fetch folders page fuel) ∧
        (idsOf d).Nodup ∧ ∀ x ∈ idsOf d, x ∉ seen := by
  intro fuel
  induction fuel with
  | zero =>
    intro page acc seen last dup pf gf
    right
    refine ⟨[], ?_, ?_, by simp [idsOf], by simp [idsOf]⟩
    · rw [crawlGo]; simp
    · rw [streamSeg]
  | succ n ih =>
    intro page acc seen last dup pf gf
    rw [crawlGo]
    cases hf : fetch page with
    | none => left; rfl
    | some items =>
      have hstream : streamSeg fetch folders page (n + 1)
          = items ++ (if page = 1 then folderLabels folders else []) ++
            streamSeg fetch folders (page + 1) n := by
        rw [streamSeg, hf, Option.getD_some]
      dsimp only
      split_ifs with h1 h2 h3 h4 h5
      · right
        refine ⟨[], by simp, ?_, by simp [idsOf], by simp [idsOf]⟩
        exact List.nil_sublist _
      · right
        refine ⟨pageNew items folders page seen, rfl, ?_,
          pageNew_ids_nodup _ _ _ _, pageNew_ids_not_seen _ _ _ _⟩
        rw [hstream]
        exact (pageNew_sublist items folders page seen).trans
          (List.sublist_append_left _ _)
      · right
        refine ⟨pageNew items folders page seen, rfl, ?_,
          pageNew_ids_nodup _ _ _ _, pageNew_ids_not_seen _ _ _ _⟩
        rw [hstream]
        exact (pageNew_sublist items folders page seen).trans
          (List.sublist_append_left _ _)
      · right
        refine ⟨pageNew items folders page seen, rfl, ?_,
          pageNew_ids_nodup _ _ _ _, pageNew_ids_not_seen _ _ _ _⟩
        rw [hstream]
        exact (pageNew_sublist items folders page seen).trans
          (List.sublist_append_left _ _)
      · rcases ih (page + 1) (acc ++ pageNew items folders page seen)
            (idsOf (pageNew items folders page seen) ++ seen) items.length (dup + 1)
            (pf + 1) (gfStep page gf folders) with
          hrec | ⟨d, hd, hsub, hnd, hns⟩
        · left; exact hrec
        · right
          refine ⟨pageNew items folders page seen ++ d, ?_, ?_, ?_, ?_⟩
          · rw [hd, List.append_assoc]
          · rw [hstream]
            exact (pageNew_sublist items folders page seen).append hsub
          · rw [idsOf_append]
            refine List.nodup_append.mpr ⟨pageNew_ids_nodup _ _ _ _, hnd, ?_⟩
            intro a ha hb
            exact hns a hb (List.mem_append_left _ ha)
          · intro x hx
            rw [idsOf_append, List.mem_append] at hx
            rcases hx with hx | hx
            · exact pageNew_ids_not_seen _ _ _ _ x hx
            · intro hxs
              exact hns x hx (List.mem_append_right _ hxs)
      · rcases ih (page + 1) (acc ++ pageNew items folders page seen)
            (idsOf (pageNew items folders page seen) ++ seen) items.length 0
            (pf + 1) (gfStep page gf folders) with
          hrec | ⟨d, hd, hsub, hnd, hns⟩
        · left; exact hrec
        · right
          refine ⟨pageNew items folders page seen ++ d, ?_, ?_, ?_, ?_⟩
          · rw [hd, List.append_assoc]
          · rw [hstream]
            exact (pageNew_sublist items folders page seen).append hsub
          · rw [idsOf_append]
            refine List.nodup_append.mpr ⟨pageNew_ids_nodup _ _ _ _, hnd, ?_⟩
            intro a ha hb
            exact hns a hb (List.mem_append_left _ ha)
          · intro x hx
            rw [idsOf_append, List.mem_append] at hx
            rcases hx with hx | hx
            · exact pageNew_ids_not_seen _ _ _ _ x hx
            · intro hxs
              exact hns x hx (List.mem_append_right _ hxs)

/-! ### Claims about the pagination controller -/

/-- C2: for every run, the crawl result contains no two entries with
equal identity, and entries appear in discovery order: the result is a
subsequence of the page-ordered discovery stream, in which page-1 folder
representatives are placed right after page-1's individual items. -/
theorem c2_nodup_discovery_order (fetch : ℕ → Option (List Item)) (folders : List Folder) :
    (idsOf (get_story_links fetch folders).stories).Nodup ∧
    (get_story_links fetch folders).stories.Sublist (streamSeg fetch folders 1 100) := by
  rcases crawlGo_stories_spec fetch folders 100 1 [] [] 0 0 0 0 with h | ⟨d, hd, hsub, hnd, -⟩
  · constructor
    · simp only [get_story_links]
      rw [h]
      simp [idsOf]
    · simp only [get_story_links]
      rw [h]
      exact List.nil_sublist _
  · constructor
    · simp only [get_story_links]
      rw [hd]
      simpa using hnd
    · simp only [get_story_links]
      rw [hd]
      simpa using hsub

/-- C3: for any Fetcher that eventually returns an empty page (and does
not fail), the controller ends in the non-aborted terminal state, and the
number of page fetches never exceeds the `max_pages = 100` ceiling —
for every Fetcher whatsoever. -/
theorem c3_termination_bounded (fetch : ℕ → Option (List Item)) (folders : List Folder)
    (h1 : ∀ p, fetch p ≠ none) (_h2 : ∃ k, fetch k = some []) :
    (get_story_links fetch folders).aborted = false ∧
    (get_story_links fetch folders).pageFetches ≤ 100 ∧
    ∀ (g : ℕ → Option (List Item)) (gfolders : List Folder),
      (get_story_links g gfolders).pageFetches ≤ 100 := by
  refine ⟨?_, ?_, ?_⟩
  · simpa [get_story_links] using crawlGo_not_aborted fetch folders h1 100 1 [] [] 0 0 0 0
  · simpa [get_story_links] using crawlGo_pageFetches_le fetch folders 100 1 [] [] 0 0 0 0
  · intro g gfolders
    simpa [get_story_links] using crawlGo_pageFetches_le g gfolders 100 1 [] [] 0 0 0 0

/-- Witness for C3 at the Fetcher that always returns an empty page. -/
theorem c3_termination_bounded_witness :
    (get_story_links (fun _ => some []) []).aborted = false ∧
    (get_story_links (fun _ => some []) []).pageFetches ≤ 100 ∧
    ∀ (g : ℕ → Option (List Item)) (gfolders : List Folder),
      (get_story_links g gfolders).pageFetches ≤ 100 :=
  c3_termination_bounded (fun _ => some []) [] (fun _ h => Option.noConfusion h) ⟨1, rfl⟩

/-- C5 (amended): a failed page fetch aborts the run with an empty result
on every page — on page 1 (where nothing was collected yet, as the claim
says) but also on pages `> 1`, where the items collected on earlier pages
are discarded rather than kept; only an empty page (not a failed fetch)
stops pagination while keeping what was collected. -/
theorem c5_fetch_failure_aborts (fetch : ℕ → Option (List Item)) (folders : List Folder) :
    ((get_story_links fetch folders).aborted = true →
       (get_story_links fetch folders).stories = []) ∧
    (fetch 1 = none →
       (get_story_links fetch folders).aborted = true ∧
       (get_story_links fetch folders).stories = []) := by
  constructor
  · intro h
    simpa [get_story_links] using
      crawlGo_aborted_nil fetch folders 100 1 [] [] 0 0 0 0
        (by simpa [get_story_links] using h)
  · intro h
    rw [get_story_links, show (100 : ℕ) = 99 + 1 from rfl, crawlGo, h]
    exact ⟨rfl, rfl⟩

/-- Witness for C5's amended statement, at the Fetcher whose very first
page fetch fails. -/
theorem c5_fetch_failure_aborts_witness :
    (get_story_links (fun _ => none) []).stories = [] ∧
    ((get_story_links (fun _ => none) []).aborted = true ∧
     (get_story_links (fun _ => none) []).stories = []) :=
  ⟨(c5_fetch_failure_aborts (fun _ => none) []).1 rfl,
   (c5_fetch_failure_aborts (fun _ => none) []).2 rfl⟩

/-- C5 counterexample: with `c5Fetch` — page 1 succeeds with one story,
page 2's fetch fails — the run returns an empty, aborted result instead
of keeping the item collected on page 1. -/
theorem c5_counterexample :
    (get_story_links c5Fetch []).aborted = true ∧
    (get_story_links c5Fetch []).stories = [] ∧
    ¬(get_story_links c5Fetch []).stories = [("7", "A")] := by
  decide

theorem string_append_assoc (a b c : String) : a ++ b ++ c = a ++ (b ++ c) := by
  obtain ⟨la⟩ := a
  obtain ⟨lb⟩ := b
  obtain ⟨lc⟩ := c
  exact congrArg String.mk (List.append_assoc la lb lc)

/-- C7: for the `N` folder references of page 1, exactly `N` folder
fetches are issued (and none on later pages or recursively); a folder's
representative is the first story of its listing, labelled
`"[<group-title>] " + label` with group title `FOLDER: <folder-title>`;
a folder with no stories is skipped; a representative is inserted only
when its identity is not already in the seen-set. -/
theorem c7_group_expansion (fetch : ℕ → Option (List Item)) (folders : List Folder)
    (h : fetch 1 ≠ none) :
    (get_story_links fetch folders).groupFetches = folders.length ∧
    (∀ t, getFirstStoryFromFolder ⟨t, []⟩ = none) ∧
    (∀ t sid st rest, getFirstStoryFromFolder ⟨t, (sid, st) :: rest⟩
        = some (sid, "[" ++ ("FOLDER: " ++ t) ++ "] " ++ st)) ∧
    (∀ (fs : List Folder) (seen : List String) (x : Item),
       x ∈ pickNew (folderLabels fs) seen →
         x.1 ∉ seen ∧ ∃ g ∈ fs, getFirstStoryFromFolder g = some x) := by
  refine ⟨get_story_links_groupFetches fetch folders h, fun t => rfl, ?_, ?_⟩
  · intro t sid st rest
    rw [getFirstStoryFromFolder]
    have hlit : ("[" ++ "FOLDER: " : String) = "[FOLDER: " := by decide
    have hlbl : ("[" ++ ("FOLDER: " ++ t) ++ "] " ++ st : String)
        = "[FOLDER: " ++ t ++ "] " ++ st := by
      rw [← string_append_assoc "[" "FOLDER: " t, hlit]
    rw [hlbl]
  · intro fs seen x hx
    constructor
    · exact pickNew_ids_not_seen _ _ x.1 (List.mem_map_of_mem Prod.fst hx)
    · exact List.mem_filterMap.mp ((pickNew_sublist _ _).subset hx)

/-- Witness for C7 at one folder holding one story. -/
theorem c7_group_expansion_witness :
    (get_story_links (fun _ => some []) [⟨"T", [("5", "S")]⟩]).groupFetches = 1 ∧
    getFirstStoryFromFolder ⟨"E", []⟩ = none ∧
    getFirstStoryFromFolder ⟨"T", [("5", "S")]⟩
      = some ("5", "[" ++ ("FOLDER: " ++ "T") ++ "] " ++ "S") ∧
    (("5", "[FOLDER: T] S") : Item).1 ∉ ([] : List String) := by
  have h := c7_group_expansion (fun _ => some []) [⟨"T", [("5", "S")]⟩]
    (fun hh => Option.noConfusion hh)
  exact ⟨h.1, h.2.1 "E", h.2.2.1 "T" "5" "S" [],
    (h.2.2.2 [⟨"T", [("5", "S")]⟩] [] ("5", "[FOLDER: T] S") (by decide)).1⟩

/-! ### Claims about the CLI surface -/

/-- C8 (amended): the process exit status is 0 on every invocation path —
`main` never calls `sys.exit`, so a run that reaches the aborted state
(including a page-1 fetch failure, which yields an empty result) exits
with code 0 exactly like a completed run, not with a non-zero code. -/
theorem c8_exit_code_always_zero (initOk loginOk : Bool)
    (fetch : ℕ → Option (List Item)) (folders : List Folder) :
    (mainRun initOk loginOk fetch folders).exitCode = 0 := by
  rw [mainRun]
  split_ifs <;> rfl

/-- C8 counterexample: a page-1 fetch failure aborts the run with an
empty crawl result, yet the exit code is 0, not non-zero. -/
theorem c8_counterexample :
    (mainRun true true (fun _ => none) []).aborted = true ∧
    (mainRun true true (fun _ => none) []).stories = [] ∧
    (mainRun true true (fun _ => none) []).exitCode = 0 :=
  ⟨rfl, rfl, rfl⟩

/-! ### Claims about the dashboard subsystem -/

/-- C9: at most one proxy process is in flight — `start_proxy_server`
called while a handle exists returns `False` and changes nothing (no
process, no script file, no database write); with no handle in flight it
spawns the process, writes the script, records the running state and
returns `True`. -/
theorem c9_single_flight (st : ProxyState) (m : String) :
    (st.proc ≠ none → start_proxy_server st m = (st, false)) ∧
    (st.proc = none →
       (start_proxy_server st m).2 = true ∧
       (start_proxy_server st m).1.proc = some m ∧
       (start_proxy_server st m).1.script = some (create_proxy_script m) ∧
       (start_proxy_server st m).1.serverRow = some ⟨true, some m, some clinePort⟩) := by
  constructor
  · intro h
    rw [start_proxy_server]
    cases hp : st.proc with
    | none => exact absurd hp h
    | some p => rfl
  · intro h
    rw [start_proxy_server, h]
    exact ⟨rfl, rfl, rfl, rfl⟩

/-- Witness for C9: a busy state is left untouched, an idle state spawns. -/
theorem c9_single_flight_witness :
    start_proxy_server ⟨some "m0", some "s", none⟩ "m1"
      = (⟨some "m0", some "s", none⟩, false) ∧
    ((start_proxy_server ⟨none, none, none⟩ "m1").2 = true ∧
     (start_proxy_server ⟨none, none, none⟩ "m1").1.proc = some "m1" ∧
     (start_proxy_server ⟨none, none, none⟩ "m1").1.script
       = some (create_proxy_script "m1") ∧
     (start_proxy_server ⟨none, none, none⟩ "m1").1.serverRow
       = some ⟨true, some "m1", some clinePort⟩) :=
  ⟨(c9_single_flight ⟨some "m0", some "s", none⟩ "m1").1 (fun hh => Option.noConfusion hh),
   (c9_single_flight ⟨none, none, none⟩ "m1").2 rfl⟩

/-- C10: `save_notes` for a `model_name` that already has a record, with
all four optional fields `None`, builds an empty `updates` list, executes
no `UPDATE`, and leaves the whole table unchanged. -/
theorem c10_save_notes_noop (db : List ModelRecord) (name : String) (now : ℕ)
    (h : db.any (fun row => decide (row.model_name = name)) = true) :
    save_notes db name none none none none now = db := by
  rw [save_notes, if_pos h]
  rfl

/-- Witness for C10 at a one-record database. -/
theorem c10_save_notes_noop_witness :
    (([⟨"llama", none, 0, none, none, none, none, none⟩] : List ModelRecord).any
        (fun row => decide (row.model_name = "llama")) = true) ∧
    save_notes [⟨"llama", none, 0, none, none, none, none, none⟩] "llama"
        none none none none 5
      = [⟨"llama", none, 0, none, none, none, none, none⟩] :=
  ⟨by decide, c10_save_notes_noop _ "llama" 5 (by decide)⟩

/-! ### Claims about download verification -/

theorem waitForDownload_cases (obs : ℕ → Option ℕ) (fuel : ℕ) :
    ∀ t, waitForDownload obs fuel t = true →
      (∃ u, (obs u).getD 0 = (obs (u + 1)).getD 0 ∧ 0 < (obs u).getD 0) ∨
      (obs (waitExitTime obs fuel t)).isSome = true := by
  induction fuel with
  | zero =>
    intro t h
    right
    rw [waitExitTime]
    rw [waitForDownload] at h
    exact h
  | succ n ih =>
    intro t h
    rw [waitForDownload] at h
    rw [waitExitTime]
    cases ho : obs t with
    | none =>
      rw [ho] at h
      dsimp only at h ⊢
      exact ih (t + 1) h
    | some sz =>
      rw [ho] at h
      dsimp only at h ⊢
      by_cases hs : (obs (t + 1)).getD 0 = (obs (t + 2)).getD 0 ∧ 0 < (obs (t + 1)).getD 0
      · left
        exact ⟨t + 1, hs.1, hs.2⟩
      · rw [if_neg hs] at h
        rw [if_neg hs]
        exact ih (t + 3) h

/-- C4 (amended): within the wait window the executor accepts only after
two successive equal non-zero size samples; a stable non-zero file is
accepted; but when the window expires, the final `return
filename.exists()` accepts mere existence, so a zero-byte or still-moving
file that exists at timeout IS reported as a completed download. -/
theorem c4_wait_verification (obs : ℕ → Option ℕ) (fuel t : ℕ) :
    (waitForDownload obs fuel t = true →
       (∃ u, (obs u).getD 0 = (obs (u + 1)).getD 0 ∧ 0 < (obs u).getD 0) ∨
       (obs (waitExitTime obs fuel t)).isSome = true) ∧
    (waitForDownload obs 0 t = (obs t).isSome) ∧
    (obs t ≠ none → (obs (t + 1)).getD 0 = (obs (t + 2)).getD 0 →
       0 < (obs (t + 1)).getD 0 → waitForDownload obs (fuel + 1) t = true) := by
  refine ⟨waitForDownload_cases obs fuel t, rfl, ?_⟩
  intro hne heq hpos
  rw [waitForDownload]
  cases ho : obs t with
  | none => exact absurd ho hne
  | some sz =>
    dsimp only
    rw [if_pos ⟨heq, hpos⟩]

/-- Witness for C4's amended statement at a stable non-zero file. -/
theorem c4_wait_verification_witness :
    ((∃ u, (stableObs u).getD 0 = (stableObs (u + 1)).getD 0 ∧ 0 < (stableObs u).getD 0) ∨
      (stableObs (waitExitTime stableObs 0 0)).isSome = true) ∧
    waitForDownload stableObs 1 0 = true := by
  have h := c4_wait_verification stableObs 0 0
  exact ⟨h.1 (by decide), h.2.2 (by decide) (by decide) (by decide)⟩

/-- C4 counterexample: a file that exists but stays at zero bytes for the
whole wait window is reported as a completed download by the final
existence check — contradicting the claim that a zero-byte file is never
accepted. -/
theorem c4_counterexample :
    waitForDownload zeroByteObs 1 0 = true ∧ (zeroByteObs 0).getD 0 = 0 := by
  decide

end KitchenSink
